import Mathlib

/-!
Verification development for the TranscriptionSummarizer repository.

The repository (src/transcribe.py, src/transcribe_auto.py, src/monitor.py)
implements an automated transcription pipeline: a directory watcher detects
new `.m4a` files, waits until their size is stable, splits the decoded audio
into 10-minute chunks, recognizes each chunk with a speech model through a
temporary WAV file, joins the chunk texts with line breaks and persists the
result with a header into the output directory.

This file is a shallow embedding of that pipeline.  Pure computations
(chunking, joining, file naming, header formatting) are translated exactly;
effectful steps are made explicit:
  * the recognition backend is an oracle `recog : Nat → Except String String`
    giving the backend's outcome on the segment with a given index
    (a raised exception becomes `Except.error`),
  * decoding is an `Except String (List α)` value (decoded audio has one
    entry per millisecond, so Python's `len(audio)` is `List.length` and the
    slice `audio[i : i + n]` is `(audio.drop i).take n`),
  * the temp directory, the de-duplication set, the number of
    `whisper.load_model` calls and the persisted outputs are threaded through
    an explicit state,
  * the readiness poll loop consumes the finite list of size samples
    observed before `max_wait` elapses (`none` = the file was missing or
    `stat` raised at that poll).
-/

namespace TranscriptionSummarizer

/-- Python `range(start, stop, step)` for a positive `step`, as the list of
visited indices (used at transcribe.py:100 and transcribe_auto.py:109 with
`range(0, duration_ms, chunk_length_ms)`). -/
def pyRange (start stop step : Nat) : List Nat :=
  (List.range ((stop - start + step - 1) / step)).map (fun k => start + k * step)

/-- `convert_audio_to_chunks` (transcribe.py:68-107, transcribe_auto.py:77-116):
`for i in range(0, duration_ms, chunk_length_ms): chunks.append(audio[i:i+chunk_length_ms])`. -/
def convert_audio_to_chunks {α : Type} (audio : List α) (chunk_length_ms : Nat) :
    List (List α) :=
  (pyRange 0 audio.length chunk_length_ms).map
    (fun i => (audio.drop i).take chunk_length_ms)

/-- `CHUNK_LENGTH_MS = 10 * 60 * 1000` (transcribe.py:33, transcribe_auto.py:55). -/
def CHUNK_LENGTH_MS : Nat := 10 * 60 * 1000

/-- The `while True` loop body of `_wait_for_file_ready`
(monitor.py:126-176, transcribe_auto.py:366-416).  The first argument is the
finite sequence of size samples the loop gets to observe before the
`max_wait` timeout check fires (each iteration sleeps `poll_interval`);
`none` stands for a poll where the file did not exist or `stat` raised, which
the code skips without touching `last_size`/`stable_count`.  The second and
third arguments are `last_size` (initially `-1`) and `stable_count`
(initially `0`); the loop returns `True` as soon as `stable_count` reaches
`3` and `False` when time runs out. -/
def waitLoop : List (Option Nat) → Int → Nat → Bool
  | [], _, _ => false
  | Option.none :: rest, last, cnt => waitLoop rest last cnt
  | Option.some s :: rest, last, cnt =>
      if (s : Int) = last then
        (if 3 ≤ cnt + 1 then true else waitLoop rest last (cnt + 1))
      else
        waitLoop rest (s : Int) 0

/-- `_wait_for_file_ready` run from its initial state `last_size = -1`,
`stable_count = 0` (monitor.py:142-144, transcribe_auto.py:382-384). -/
def wait_for_file_ready (samples : List (Option Nat)) : Bool :=
  waitLoop samples (-1) 0

/-- The same loop restricted to the successful size samples (those where the
file existed and `stat` did not raise); used to relate `waitLoop` to the
specification's description of the stability rule. -/
def waitLoopV : List Nat → Int → Nat → Bool
  | [], _, _ => false
  | s :: rest, last, cnt =>
      if (s : Int) = last then
        (if 3 ≤ cnt + 1 then true else waitLoopV rest last (cnt + 1))
      else
        waitLoopV rest (s : Int) 0

/-- Length of the longest run of samples at the head of the list that are all
equal to the baseline `v`. -/
def stableRunLen (v : Int) : List Nat → Nat
  | [] => 0
  | s :: rest => if (s : Int) = v then stableRunLen v rest + 1 else 0

/-- Specification-side predicate: some sample records a baseline size and the
three following successful samples all equal that baseline (the
`stability_window = 3` rule of spec section 4.1). -/
def hasStableRun : List Nat → Bool
  | [] => false
  | s :: rest => decide (3 ≤ stableRunLen (s : Int) rest) || hasStableRun rest

/-- State of the per-chunk recognition loop of `transcribe_audio`
(transcribe.py:176-215, transcribe_auto.py:182-222): the accumulated
`all_transcriptions`, the temp-chunk WAV files currently present in the temp
directory (by chunk index), the chunk indices on which `model.transcribe` was
invoked (in invocation order), and the pending exception (`some e` once a
recognition call raised; the remaining iterations are then skipped because
the exception propagates out of the loop). -/
structure LoopState where
  texts : List String
  disk : List Nat
  calls : List Nat
  err : Option String
deriving Repr, DecidableEq

def initLoopState : LoopState := ⟨[], [], [], none⟩

/-- One iteration of the `for idx, chunk in enumerate(chunks)` loop
(transcribe.py:184-215): export the chunk to `temp/temp_chunk_{idx}.wav`,
invoke `model.transcribe` (the oracle `recog idx`), append the text, unlink
the temp file.  If recognition raises, the temp file is NOT unlinked (there
is no `try/finally` around the body) and the loop aborts. -/
def segStep (recog : Nat → Except String String) (st : LoopState) (idx : Nat) :
    LoopState :=
  match st.err with
  | some _ => st
  | none =>
      let disk1 := st.disk ++ [idx]
      match recog idx with
      | Except.ok t =>
          { st with texts := st.texts ++ [t], disk := disk1.erase idx,
                    calls := st.calls ++ [idx] }
      | Except.error e =>
          { st with disk := disk1, calls := st.calls ++ [idx], err := some e }

/-- The text the oracle returns on a segment it recognizes successfully. -/
def okText (recog : Nat → Except String String) (j : Nat) : String :=
  match recog j with
  | Except.ok t => t
  | Except.error _ => ""

/-- Python `"\n".join(texts)` (transcribe.py:231, transcribe_auto.py:238),
the transcript assembler. -/
def full_transcription : List String → String
  | [] => ""
  | t :: rest => rest.foldl (fun acc x => acc ++ "\n" ++ x) t

/-- Result of one `transcribe_audio` call: the returned transcript (or the
exception that propagated), the temp-chunk files left in the temp directory
when the call ends, the chunk indices that were sent to the recognizer, and
the number of `whisper.load_model` calls the invocation performed. -/
structure TRes where
  result : Except String String
  temps : List Nat
  calls : List Nat
  loads : Nat
deriving Repr

/-- `transcribe_audio` (transcribe.py:110-236, transcribe_auto.py:119-243):
pick a device, load the model (always exactly one `load_model` call per
invocation, before decoding), decode and split the audio, run the per-chunk
loop, and join the texts.  `decoded` is the outcome of
`AudioSegment.from_file`; a decode failure propagates out after the model
was already loaded. -/
def transcribe_audio (decoded : Except String (List Nat)) (chunk_length_ms : Nat)
    (recog : Nat → Except String String) : TRes :=
  match decoded with
  | Except.error e => ⟨Except.error e, [], [], 1⟩
  | Except.ok audio =>
      let chunks := convert_audio_to_chunks audio chunk_length_ms
      let st := (List.range chunks.length).foldl (segStep recog) initLoopState
      match st.err with
      | some e => ⟨Except.error e, st.disk, st.calls, 1⟩
      | none => ⟨Except.ok (full_transcription st.texts), st.disk, st.calls, 1⟩

/-- Index (from the right) of the last occurrence of `c`, as in Python's
`str.rfind`. -/
def rfindChar : List Char → Char → Option Nat
  | [], _ => none
  | a :: rest, c =>
      match rfindChar rest c with
      | some i => some (i + 1)
      | none => if a = c then some 0 else none

/-- Final path component (CPython `PurePath.name` for a normalized relative
path such as `input/a.m4a`). -/
def pathName (p : String) : String :=
  String.mk ((p.toList.reverse.takeWhile (fun c => c ≠ '/')).reverse)

/-- CPython `PurePath.suffix`: the extension of the final component,
`name[i:]` when `0 < i < len(name) - 1` for `i = name.rfind('.')`, else `""`. -/
def pySuffix (name : String) : String :=
  let cs := name.toList
  match rfindChar cs '.' with
  | some i => if 0 < i ∧ i + 1 < cs.length then String.mk (cs.drop i) else ""
  | none => ""

/-- CPython `PurePath.stem`: the final component with its suffix stripped. -/
def pyStem (name : String) : String :=
  let cs := name.toList
  match rfindChar cs '.' with
  | some i => if 0 < i ∧ i + 1 < cs.length then String.mk (cs.take i) else name
  | none => name

/-- Python `str.lower()` (the inputs compared in this code are ASCII
extensions). -/
def strLower (s : String) : String := String.mk (s.toList.map Char.toLower)

/-- A wall-clock instant as used by `datetime.now().strftime(...)`. -/
structure DateTime where
  year : Nat
  month : Nat
  day : Nat
  hour : Nat
  minute : Nat
  second : Nat
deriving Repr, DecidableEq

def digitChar (n : Nat) : Char := Char.ofNat (48 + n % 10)

/-- Zero-padded two-digit field (`%m`, `%d`, `%H`, `%M`, `%S`; these strftime
fields are always below 100). -/
def pad2 (n : Nat) : String := String.mk [digitChar (n / 10 % 10), digitChar (n % 10)]

/-- Zero-padded four-digit field (`%Y` for years below 10000). -/
def pad4 (n : Nat) : String :=
  String.mk [digitChar (n / 1000 % 10), digitChar (n / 100 % 10),
             digitChar (n / 10 % 10), digitChar (n % 10)]

/-- `strftime("%Y%m%d_%H%M%S")` — the second-resolution timestamp appended to
the output file name (transcribe.py:266, transcribe_auto.py:273). -/
def strftime_compact (t : DateTime) : String :=
  pad4 t.year ++ pad2 t.month ++ pad2 t.day ++ "_"
    ++ pad2 t.hour ++ pad2 t.minute ++ pad2 t.second

/-- `strftime("%Y-%m-%d %H:%M:%S")` — the creation time written in the
header (transcribe.py:282, transcribe_auto.py:289). -/
def strftime_readable (t : DateTime) : String :=
  pad4 t.year ++ "-" ++ pad2 t.month ++ "-" ++ pad2 t.day ++ " "
    ++ pad2 t.hour ++ ":" ++ pad2 t.minute ++ ":" ++ pad2 t.second

/-- The 60-character `'='*60` separator line (transcribe.py:283). -/
def eqSeparator : String := String.mk (List.replicate 60 '=')

/-- `save_transcription` (transcribe.py:239-289, transcribe_auto.py:246-295).
`now1` is the `datetime.now()` used for the file name, `now2` the one used in
the header.  Returns the output path and the full file content; each `++`
group of the content corresponds to one `f.write` call of the source.  The
filesystem model is trivial: the file at the returned path holds exactly the
returned content, so re-reading it yields that string back. -/
def save_transcription (text original_filename : String) (now1 now2 : DateTime) :
    String × String :=
  let base_name := pyStem original_filename
  let output_filename := base_name ++ "_" ++ strftime_compact now1 ++ ".txt"
  let output_path := "output/" ++ output_filename
  let content :=
    "# 文字起こし結果\n"
      ++ ("元ファイル: " ++ original_filename ++ "\n")
      ++ ("作成日時: " ++ strftime_readable now2 ++ "\n")
      ++ ("\n" ++ eqSeparator ++ "\n\n")
      ++ text
  (output_path, content)

/-- The header block that precedes the transcript body in every persisted
file (the first four `f.write` calls of `save_transcription`). -/
def headerBlock (original_filename : String) (now2 : DateTime) : String :=
  "# 文字起こし結果\n"
    ++ ("元ファイル: " ++ original_filename ++ "\n")
    ++ ("作成日時: " ++ strftime_readable now2 ++ "\n")
    ++ ("\n" ++ eqSeparator ++ "\n\n")

/-- Observable steps performed while handling one file-creation event, used
to reason about the order of the readiness wait, the `processing_files`
mutations, and the pipeline stages. -/
inductive Act where
  | sleepInitial
  | readinessWait
  | addToSet
  | loadModel
  | decodeAudio
  | recognize (idx : Nat)
  | persistOutput
  | removeFromSet
deriving Repr, DecidableEq

/-- The watcher-process state: the handler's `processing_files` set, the
total number of `whisper.load_model` calls so far, the persisted output
files, the temp-chunk files left on disk, and the trace of observable
steps. -/
structure MonState where
  processing : List String
  loads : Nat
  outputs : List (String × String)
  temps : List Nat
  trace : List Act
deriving Repr, DecidableEq

def mon0 : MonState := ⟨[], 0, [], [], []⟩

/-- One file-creation event together with the environment the handler
observes while processing it: the readiness size samples, the decode
outcome, the recognition oracle and the two `datetime.now()` readings. -/
structure Job where
  is_directory : Bool
  src_path : String
  samples : List (Option Nat)
  decoded : Except String (List Nat)
  recog : Nat → Except String String
  now1 : DateTime
  now2 : DateTime

/-- `_process_audio_file` (monitor.py:178-223, transcribe_auto.py:418-462):
add the path to `processing_files`, `try` transcription and persistence,
`except` swallows the error, `finally` discards the path from the set. -/
def process_audio_file (job : Job) (st : MonState) : MonState :=
  let stA := { st with processing := job.src_path :: st.processing,
                       trace := st.trace ++ [Act.addToSet] }
  let tr := transcribe_audio job.decoded CHUNK_LENGTH_MS job.recog
  let stB := { stA with loads := stA.loads + tr.loads,
                        temps := stA.temps ++ tr.temps,
                        trace := stA.trace ++ [Act.loadModel, Act.decodeAudio]
                                   ++ tr.calls.map Act.recognize }
  let stC :=
    match tr.result with
    | Except.ok text =>
        { stB with
            outputs := stB.outputs
              ++ [save_transcription text (pathName job.src_path) job.now1 job.now2],
            trace := stB.trace ++ [Act.persistOutput] }
    | Except.error _ => stB
  { stC with processing := stC.processing.erase job.src_path,
             trace := stC.trace ++ [Act.removeFromSet] }

/-- `on_created` (monitor.py:84-124, transcribe_auto.py:324-364): ignore
directories, ignore non-`.m4a` suffixes (case-insensitively), ignore paths
already in `processing_files`, then `time.sleep(2)`, then
`_wait_for_file_ready`, and only on readiness dispatch to
`_process_audio_file`. -/
def on_created (job : Job) (st : MonState) : MonState :=
  if job.is_directory then st
  else if strLower (pySuffix (pathName job.src_path)) ≠ ".m4a" then st
  else if job.src_path ∈ st.processing then st
  else
    let st1 := { st with trace := st.trace ++ [Act.sleepInitial, Act.readinessWait] }
    if wait_for_file_ready job.samples then process_audio_file job st1 else st1

/-- The steps `_process_audio_file` performs strictly between the
`processing_files` insertion and the `finally` removal. -/
def midActs (job : Job) : List Act :=
  [Act.loadModel, Act.decodeAudio]
    ++ (transcribe_audio job.decoded CHUNK_LENGTH_MS job.recog).calls.map Act.recognize
    ++ (match (transcribe_audio job.decoded CHUNK_LENGTH_MS job.recog).result with
        | Except.ok _ => [Act.persistOutput]
        | Except.error _ => [])

/-- Glob filter `*.m4a` of `get_m4a_files` (transcribe.py:64), as a suffix
match on the file name. -/
def matchesM4aGlob (name : String) : Bool :=
  List.isSuffixOf ".m4a".toList name.toList

/-- Insertion step of an ascending stable sort on strings. -/
def insertSorted (x : String) : List String → List String
  | [] => [x]
  | y :: rest => if y < x then y :: insertSorted x rest else x :: y :: rest

/-- Ascending stable sort, modelling Python's `sorted` on path names. -/
def sortStrings : List String → List String
  | [] => []
  | x :: rest => insertSorted x (sortStrings rest)

/-- `get_m4a_files` (transcribe.py:51-65): the `.m4a` entries of the input
directory listing, in sorted order. -/
def get_m4a_files (listing : List String) : List String :=
  sortStrings (listing.filter (fun f => matchesM4aGlob f))

/-- The `try` body of the batch loop for one file (transcribe.py:358-367):
transcribe then save, each of which may raise; `none` means the `except`
branch was taken and nothing was persisted for the file. -/
def processOneFile (tr : String → Except String String)
    (sv : String → String → Except String (String × String)) (f : String) :
    Option (String × String) :=
  match tr f with
  | Except.error _ => none
  | Except.ok text =>
      match sv text f with
      | Except.error _ => none
      | Except.ok out => some out

/-- The `for audio_file in m4a_files` loop of the batch `main`
(transcribe.py:357-373): each file's body runs inside `try/except ...
continue`, so the loop always advances to the next file. -/
def main_batch_loop (tr : String → Except String String)
    (sv : String → String → Except String (String × String)) :
    List String → List (String × Option (String × String))
  | [] => []
  | f :: rest => (f, processOneFile tr sv f) :: main_batch_loop tr sv rest

/-- A fixed wall-clock instant used for concrete runs. -/
def dt0 : DateTime := ⟨2025, 1, 30, 15, 30, 0⟩

/-- Recognition oracle that succeeds on every segment. -/
def recogOk : Nat → Except String String := fun _ => Except.ok "hello"

/-- Recognition oracle that raises on every segment. -/
def recogBoom : Nat → Except String String := fun _ => Except.error "boom"

/-- Recognition oracle that raises on segment 0 only. -/
def recogFail0 : Nat → Except String String :=
  fun j => if j = 0 then Except.error "boom" else Except.ok "ok"

/-- A concrete successful job on `input/a.m4a` (one chunk, stable size). -/
def jobA : Job :=
  ⟨false, "input/a.m4a",
   [Option.some 3, Option.some 3, Option.some 3, Option.some 3],
   Except.ok [0], recogOk, dt0, dt0⟩

/-- A concrete successful job on `input/b.m4a`. -/
def jobB : Job :=
  ⟨false, "input/b.m4a",
   [Option.some 7, Option.some 7, Option.some 7, Option.some 7],
   Except.ok [0], recogOk, dt0, dt0⟩

/-- A concrete job whose recognition fails on segment 0. -/
def jobFail : Job :=
  ⟨false, "input/c.m4a",
   [Option.some 4, Option.some 4, Option.some 4, Option.some 4],
   Except.ok [1, 2], recogBoom, dt0, dt0⟩

/-! Helper lemmas about the segment splitter. -/

theorem convert_chunks_eq_map {α : Type} (audio : List α) (M : Nat) :
    convert_audio_to_chunks audio M
      = (List.range ((audio.length + M - 1) / M)).map
          (fun k => (audio.drop (k * M)).take M) := by
  unfold convert_audio_to_chunks pyRange
  rw [List.map_map]
  simp [Function.comp]

theorem flatten_chunks_take {α : Type} (M : Nat) :
    ∀ (c : Nat) (l : List α),
      ((List.range c).map (fun k => (l.drop (k * M)).take M)).flatten
        = l.take (c * M) := by
  intro c
  induction c with
  | zero => intro l; simp
  | succ n ih =>
      intro l
      rw [List.range_succ_eq_map, List.map_cons, List.flatten_cons, List.map_map]
      have hfun : ((fun k => (l.drop (k * M)).take M) ∘ Nat.succ)
          = fun k => ((l.drop M).drop (k * M)).take M := by
        funext k
        simp only [Function.comp_apply]
        rw [List.drop_drop]
        congr 2
        rw [Nat.succ_mul, Nat.add_comm]
      rw [hfun, ih (l.drop M)]
      rw [Nat.succ_mul, Nat.add_comm (n * M) M, List.take_add]
      simp

theorem ceil_mul_ge {D M : Nat} (hM : 0 < M) :
    D ≤ ((D + M - 1) / M) * M := by
  by_contra hcon
  push_neg at hcon
  have h1 : ((D + M - 1) / M) * M + M ≤ D + M - 1 :=
    Nat.le_pred_of_lt (Nat.add_lt_add_right hcon M)
  rw [← Nat.succ_mul] at h1
  have h2 : (D + M - 1) / M + 1 ≤ (D + M - 1) / M :=
    (Nat.le_div_iff_mul_le hM).mpr h1
  omega

theorem mul_lt_of_lt_ceil {D M m : Nat} (hM : 0 < M)
    (h : m < (D + M - 1) / M) : m * M < D := by
  have h1 : (m + 1) * M ≤ D + M - 1 := (Nat.le_div_iff_mul_le hM).mp h
  rw [Nat.succ_mul] at h1
  have h3 : m * M + M < D + M := Nat.lt_of_le_of_lt h1 (by omega)
  exact Nat.lt_of_add_lt_add_right h3

/-- C4: for decoded audio of positive duration D ms and positive maximum
segment duration M ms, `convert_audio_to_chunks` produces exactly
ceil(D/M) = (D+M-1)/M segments; segment k is the window
`audio[k*M : k*M + M]` (so the segments are contiguous, non-overlapping and
in ascending time order), every segment whose index is not the last has
length M, the last segment has the remainder length D - (c-1)*M, and
concatenating the segments in index order reconstructs the recording. -/
theorem c4_segment_split_contract {α : Type} (audio : List α) (M : Nat)
    (hD : 0 < audio.length) (hM : 0 < M) :
    (convert_audio_to_chunks audio M).length = (audio.length + M - 1) / M
    ∧ (convert_audio_to_chunks audio M).flatten = audio
    ∧ (∀ k, ∀ hk : k < (convert_audio_to_chunks audio M).length,
        (convert_audio_to_chunks audio M)[k] = (audio.drop (k * M)).take M)
    ∧ (∀ k, ∀ hk : k < (convert_audio_to_chunks audio M).length,
        k + 1 < (audio.length + M - 1) / M →
        ((convert_audio_to_chunks audio M)[k]).length = M)
    ∧ (∀ hk : (audio.length + M - 1) / M - 1
          < (convert_audio_to_chunks audio M).length,
        ((convert_audio_to_chunks audio M)[(audio.length + M - 1) / M - 1]).length
          = audio.length - ((audio.length + M - 1) / M - 1) * M) := by
  have hmap := convert_chunks_eq_map audio M
  refine ⟨?_, ?_, ?_, ?_, ?_⟩
  · rw [hmap]; simp
  · rw [hmap, flatten_chunks_take]
    exact List.take_of_length_le (ceil_mul_ge hM)
  · intro k hk
    simp [hmap]
  · intro k hk hlast
    have hget : (convert_audio_to_chunks audio M)[k] = (audio.drop (k * M)).take M := by
      simp [hmap]
    rw [hget, List.length_take, List.length_drop]
    have hlt : (k + 1) * M < audio.length := mul_lt_of_lt_ceil hM hlast
    rw [Nat.succ_mul] at hlt
    set a := k * M with ha
    have hle : M ≤ audio.length - a := by omega
    rw [Nat.min_eq_left hle]
  · intro hk
    have hget : (convert_audio_to_chunks audio M)[(audio.length + M - 1) / M - 1]
        = (audio.drop (((audio.length + M - 1) / M - 1) * M)).take M := by
      simp [hmap]
    rw [hget, List.length_take, List.length_drop]
    have hge : audio.length ≤ ((audio.length + M - 1) / M) * M := ceil_mul_ge hM
    have hc1 : 1 ≤ (audio.length + M - 1) / M :=
      (Nat.le_div_iff_mul_le hM).mpr (by omega)
    have hmul : ((audio.length + M - 1) / M) * M
        = ((audio.length + M - 1) / M - 1) * M + M := by
      conv_lhs => rw [← Nat.succ_pred_eq_of_pos hc1]
      rw [Nat.succ_mul]
      rfl
    rw [hmul] at hge
    set b := ((audio.length + M - 1) / M - 1) * M with hb
    have hle : audio.length - b ≤ M := by omega
    rw [Nat.min_eq_right hle]

/-- C4 witness: the split contract instantiated on a concrete five-sample
recording cut into two-sample segments. -/
theorem c4_segment_split_contract_witness :
    0 < ([10, 20, 30, 40, 50] : List Nat).length ∧ 0 < 2
    ∧ (convert_audio_to_chunks ([10, 20, 30, 40, 50] : List Nat) 2).flatten
        = [10, 20, 30, 40, 50] :=
  ⟨by decide, by decide,
   (c4_segment_split_contract ([10, 20, 30, 40, 50] : List Nat) 2
     (by decide) (by decide)).2.1⟩

/-! Helper lemmas about the per-chunk recognition loop. -/

theorem foldl_segStep_err (recog : Nat → Except String String) (st : LoopState)
    (e : String) (h : st.err = some e) :
    ∀ l : List Nat, l.foldl (segStep recog) st = st := by
  intro l
  induction l with
  | nil => rfl
  | cons a t ih =>
      have hstep : segStep recog st a = st := by
        unfold segStep
        rw [h]
      simpa [hstep] using ih

theorem foldl_segStep_ok (recog : Nat → Except String String) :
    ∀ n : Nat, (∀ j, j < n → recog j = Except.ok (okText recog j)) →
      (List.range n).foldl (segStep recog) initLoopState
        = ⟨(List.range n).map (okText recog), [], List.range n, none⟩ := by
  intro n
  induction n with
  | zero => intro _; rfl
  | succ m ih =>
      intro h
      rw [List.range_succ, List.foldl_append,
          ih (fun j hj => h j (Nat.lt_succ_of_lt hj))]
      have hm : recog m = Except.ok (okText recog m) := h m (Nat.lt_succ_self m)
      simp [segStep, hm, List.range_succ]

theorem foldl_segStep_fail (recog : Nat → Except String String) (k n : Nat)
    (e : String) (hk : k < n)
    (hok : ∀ j, j < k → recog j = Except.ok (okText recog j))
    (hfail : recog k = Except.error e) :
    (List.range n).foldl (segStep recog) initLoopState
      = ⟨(List.range k).map (okText recog), [k], List.range (k + 1), some e⟩ := by
  obtain ⟨m, rfl⟩ : ∃ m, n = (k + 1) + m := ⟨n - (k + 1), by omega⟩
  rw [List.range_add, List.foldl_append]
  have h1 : (List.range (k + 1)).foldl (segStep recog) initLoopState
      = ⟨(List.range k).map (okText recog), [k], List.range (k + 1), some e⟩ := by
    rw [List.range_succ, List.foldl_append, foldl_segStep_ok recog k hok]
    simp [segStep, hfail, List.range_succ]
  rw [h1]
  exact foldl_segStep_err recog _ e rfl _

theorem transcribe_audio_loads (decoded : Except String (List Nat))
    (M : Nat) (recog : Nat → Except String String) :
    (transcribe_audio decoded M recog).loads = 1 := by
  unfold transcribe_audio
  cases decoded with
  | error e => rfl
  | ok audio =>
      cases hE : ((List.range (convert_audio_to_chunks audio M).length).foldl
          (segStep recog) initLoopState).err <;> simp [hE]

theorem transcribe_audio_ok (audio : List Nat) (M : Nat)
    (recog : Nat → Except String String)
    (hok : ∀ j, j < (convert_audio_to_chunks audio M).length →
      recog j = Except.ok (okText recog j)) :
    transcribe_audio (Except.ok audio) M recog
      = ⟨Except.ok (full_transcription
            ((List.range (convert_audio_to_chunks audio M).length).map (okText recog))),
         [], List.range (convert_audio_to_chunks audio M).length, 1⟩ := by
  unfold transcribe_audio
  dsimp only
  rw [foldl_segStep_ok recog _ hok]

theorem transcribe_audio_fail (audio : List Nat) (M : Nat)
    (recog : Nat → Except String String) (k : Nat) (e : String)
    (hk : k < (convert_audio_to_chunks audio M).length)
    (hok : ∀ j, j < k → recog j = Except.ok (okText recog j))
    (hfail : recog k = Except.error e) :
    transcribe_audio (Except.ok audio) M recog
      = ⟨Except.error e, [k], List.range (k + 1), 1⟩ := by
  unfold transcribe_audio
  dsimp only
  rw [foldl_segStep_fail recog k _ e hk hok hfail]

/-- C1 counterexample: a one-chunk file whose recognition raises.  The
per-segment loop body (transcribe.py:184-215, transcribe_auto.py:191-222)
has no `try/finally`: `temp_file.unlink()` only runs after a successful
`model.transcribe`, so when recognition raises on segment 0 the temp WAV
`temp/temp_chunk_0.wav` is still on disk when `transcribe_audio` (and hence
the whole processing of the file) ends. -/
theorem c1_temp_cleanup_counterexample :
    (transcribe_audio (Except.ok ([5] : List Nat)) CHUNK_LENGTH_MS recogBoom).temps
        = [0]
    ∧ (transcribe_audio (Except.ok ([5] : List Nat)) CHUNK_LENGTH_MS recogBoom).temps
        ≠ [] := by
  constructor
  · rfl
  · decide

/-- C1 (amended): on the success path every segment's temp WAV file is
written and then deleted before the loop moves on, so a fully successful
`transcribe_audio` leaves no intermediate artifact on disk; but when
recognition raises on segment k, the temp files of segments 0..k-1 have been
deleted while segment k's temp file remains on disk (the deletion is not
exception-safe — there is no scoped cleanup). -/
theorem c1_temp_cleanup_amended (audio : List Nat) (M : Nat)
    (recog : Nat → Except String String) :
    ((∀ j, j < (convert_audio_to_chunks audio M).length →
        recog j = Except.ok (okText recog j)) →
      (transcribe_audio (Except.ok audio) M recog).temps = [])
    ∧ (∀ k e, k < (convert_audio_to_chunks audio M).length →
        (∀ j, j < k → recog j = Except.ok (okText recog j)) →
        recog k = Except.error e →
        (transcribe_audio (Except.ok audio) M recog).temps = [k]) := by
  constructor
  · intro h
    rw [transcribe_audio_ok audio M recog h]
  · intro k e hk hok hfail
    rw [transcribe_audio_fail audio M recog k e hk hok hfail]

/-- C1 witness: the amended cleanup behaviour on concrete runs — an
all-successful two-chunk file leaves nothing behind, and a failure on
segment 0 leaves exactly `temp_chunk_0.wav` behind. -/
theorem c1_temp_cleanup_amended_witness :
    (transcribe_audio (Except.ok ([1, 2] : List Nat)) CHUNK_LENGTH_MS recogOk).temps = []
    ∧ (transcribe_audio (Except.ok ([1, 2] : List Nat)) CHUNK_LENGTH_MS recogFail0).temps
        = [0] :=
  ⟨(c1_temp_cleanup_amended [1, 2] CHUNK_LENGTH_MS recogOk).1
      (fun j _ => rfl),
   (c1_temp_cleanup_amended [1, 2] CHUNK_LENGTH_MS recogFail0).2 0 "boom"
      (by decide) (fun j hj => absurd hj (Nat.not_lt_zero j)) rfl⟩

/-- C9: a zero-duration decoded recording yields an empty chunk list
(`range(0, 0, M)` is empty, transcribe.py:100), so the recognition loop body
never runs (no recognizer invocation, no temp file) and
`"\n".join([])` produces the empty transcript. -/
theorem c9_zero_duration_empty (M : Nat) (recog : Nat → Except String String) :
    convert_audio_to_chunks ([] : List Nat) M = []
    ∧ (transcribe_audio (Except.ok ([] : List Nat)) M recog).calls = []
    ∧ (transcribe_audio (Except.ok ([] : List Nat)) M recog).temps = []
    ∧ (transcribe_audio (Except.ok ([] : List Nat)) M recog).result = Except.ok "" := by
  have hchunks : convert_audio_to_chunks ([] : List Nat) M = [] := by
    unfold convert_audio_to_chunks pyRange
    have : (M - 1) / M = 0 := by
      rcases Nat.eq_zero_or_pos M with h | h
      · simp [h]
      · exact Nat.div_eq_of_lt (by omega)
    simp [this]
  refine ⟨hchunks, ?_, ?_, ?_⟩ <;>
    · unfold transcribe_audio
      dsimp only
      rw [hchunks]
      rfl

/-! Helper lemmas about the readiness detector. -/

theorem waitLoop_eq_waitLoopV :
    ∀ (samples : List (Option Nat)) (last : Int) (cnt : Nat),
      waitLoop samples last cnt = waitLoopV (samples.filterMap id) last cnt := by
  intro samples
  induction samples with
  | nil => intro last cnt; rfl
  | cons o rest ih =>
      intro last cnt
      cases o with
      | none => simpa [waitLoop, List.filterMap_cons] using ih last cnt
      | some s =>
          simp only [waitLoop, List.filterMap_cons, id, waitLoopV]
          by_cases h : (s : Int) = last
          · simp [h, ih]
          · simp [h, ih]

theorem waitLoopV_characterization :
    ∀ (l : List Nat) (v : Int) (cnt : Nat), cnt < 3 →
      waitLoopV l v cnt
        = (decide (3 ≤ stableRunLen v l + cnt) || hasStableRun l) := by
  intro l
  induction l with
  | nil =>
      intro v cnt hc
      have h3 : ¬ 3 ≤ stableRunLen v [] + cnt := by
        simp only [stableRunLen]
        omega
      simp [waitLoopV, hasStableRun, h3]
  | cons s rest ih =>
      intro v cnt hc
      by_cases h : (s : Int) = v
      · simp only [waitLoopV, stableRunLen, hasStableRun, h, if_pos]
        by_cases h3 : 3 ≤ cnt + 1
        · have htot : 3 ≤ stableRunLen v rest + 1 + cnt := by omega
          simp [h3, htot]
        · have hcnt : cnt + 1 < 3 := by omega
          rw [if_neg h3, ih v (cnt + 1) hcnt]
          rcases Nat.lt_or_ge (stableRunLen v rest) 3 with hP | hP
          · have hP2 : ¬ 3 ≤ stableRunLen v rest := by omega
            have e1 : stableRunLen v rest + (cnt + 1)
                = stableRunLen v rest + 1 + cnt := by omega
            simp [hP2, e1]
          · have h1 : 3 ≤ stableRunLen v rest + (cnt + 1) := by omega
            have h2 : 3 ≤ stableRunLen v rest + 1 + cnt := by omega
            simp [h1, h2, hP]
      · simp only [waitLoopV, stableRunLen, hasStableRun, h, if_neg]
        rw [ih (s : Int) 0 (by omega)]
        have h0 : ¬ 3 ≤ cnt := by omega
        simp [h0]

theorem stableRunLen_neg_one (l : List Nat) : stableRunLen (-1) l = 0 := by
  cases l with
  | nil => rfl
  | cons s rest =>
      have h : ((s : Nat) : Int) ≠ -1 := by omega
      simp [stableRunLen, h]

/-- C5: behaviour of `_wait_for_file_ready` (monitor.py:126-176,
transcribe_auto.py:366-416) over the finite sequence of size samples that
fit before `max_wait` (30s) elapses, sampled every `poll_interval` (0.5s).
(1) The wait succeeds exactly when among the successful samples some sample
records a baseline that the next `stability_window = 3` consecutive
successful samples all equal; running out of samples (the timeout) yields
`false` otherwise.  (2) A sample where the file is missing or `stat` raises
is skipped: it neither counts toward stability nor aborts the wait.
(3) A changed size resets the counter to zero and makes the new size the
baseline.  (4) An unchanged size with the counter reaching the window
returns `true` on the spot.  (5) Exhausting the time budget returns
`false`. -/
theorem c5_readiness_characterization :
    (∀ samples : List (Option Nat),
        wait_for_file_ready samples = hasStableRun (samples.filterMap id))
    ∧ (∀ (rest : List (Option Nat)) (last : Int) (cnt : Nat),
        waitLoop (Option.none :: rest) last cnt = waitLoop rest last cnt)
    ∧ (∀ (s : Nat) (rest : List (Option Nat)) (last : Int) (cnt : Nat),
        (s : Int) ≠ last →
        waitLoop (Option.some s :: rest) last cnt = waitLoop rest (s : Int) 0)
    ∧ (∀ (s : Nat) (rest : List (Option Nat)) (cnt : Nat),
        3 ≤ cnt + 1 →
        waitLoop (Option.some s :: rest) (s : Int) cnt = true)
    ∧ (∀ (last : Int) (cnt : Nat), waitLoop [] last cnt = false) := by
  refine ⟨?_, ?_, ?_, ?_, ?_⟩
  · intro samples
    rw [wait_for_file_ready, waitLoop_eq_waitLoopV,
        waitLoopV_characterization _ _ _ (by omega),
        stableRunLen_neg_one]
    simp
  · intro rest last cnt
    rfl
  · intro s rest last cnt h
    simp [waitLoop, h]
  · intro s rest cnt h
    simp [waitLoop, h]
  · intro last cnt
    rfl

/-- C5 witness: the hypotheses of the reset and success clauses hold on
concrete samples — a first sample always differs from the initial `-1`
baseline, and an unchanged third consecutive sample returns `true`. -/
theorem c5_readiness_characterization_witness :
    waitLoop [Option.some 5] (-1) 0 = waitLoop [] (5 : Int) 0
    ∧ waitLoop [Option.some 9] (9 : Int) 2 = true :=
  ⟨c5_readiness_characterization.2.2.1 5 [] (-1) 0 (by decide),
   c5_readiness_characterization.2.2.2.1 9 [] 2 (by decide)⟩

/-- C7: the transcript assembler is `"\n".join` in index order —
`["a", "b", "c"]` becomes `"a\nb\nc"`, an empty text still contributes its
line — and the persisted file content is exactly the fixed header block
followed by the body, so re-reading the written file reproduces the body
unchanged after the header. -/
theorem c7_assemble_roundtrip :
    full_transcription ["a", "b", "c"] = "a\nb\nc"
    ∧ full_transcription ["a", "", "c"] = "a\n\nc"
    ∧ (∀ (text fn : String) (now1 now2 : DateTime),
        (save_transcription text fn now1 now2).2 = headerBlock fn now2 ++ text) := by
  refine ⟨by decide, by decide, ?_⟩
  intro text fn now1 now2
  rfl

/-- C8 counterexample: on a concrete call the derived path and naming scheme
match the claim, but the first header line the code writes is the Japanese
literal `"# 文字起こし結果"` (transcribe.py:280), not the line
`"# Transcription Result"` the claim requires, so the content is not "the
header block exactly as specified". -/
theorem c8_persist_counterexample :
    (save_transcription "hello" "meeting.m4a" dt0 dt0).1
        = "output/meeting_20250130_153000.txt"
    ∧ List.take 10 ((save_transcription "hello" "meeting.m4a" dt0 dt0).2).toList
        = "# 文字起こし結果\n".toList
    ∧ List.take 10 ((save_transcription "hello" "meeting.m4a" dt0 dt0).2).toList
        ≠ List.take 10 "# Transcription Result\n".toList := by
  refine ⟨?_, ?_, ?_⟩ <;> decide

/-- C8 (amended): `save_transcription` writes to the output directory the
UTF-8 text file `<original-stem>_<YYYYMMDD_HHMMSS>.txt` (extension stripped,
second-resolution timestamp) and returns that path; the content is the fixed
header block — the line `"# 文字起こし結果"`, a source-filename line
(`元ファイル:`), a creation-time line (`作成日時:`), a blank line, a
60-character `'='` separator, a blank line — followed by the transcript
body. -/
theorem c8_persist_contract_amended (text fn : String) (now1 now2 : DateTime) :
    (save_transcription text fn now1 now2).1
      = "output/" ++ (pyStem fn ++ "_" ++ strftime_compact now1 ++ ".txt")
    ∧ (save_transcription text fn now1 now2).2 = headerBlock fn now2 ++ text
    ∧ eqSeparator.length = 60
    ∧ headerBlock fn now2
        = "# 文字起こし結果\n"
          ++ ("元ファイル: " ++ fn ++ "\n")
          ++ ("作成日時: " ++ strftime_readable now2 ++ "\n")
          ++ ("\n" ++ eqSeparator ++ "\n\n") := by
  refine ⟨rfl, rfl, by decide, rfl⟩

/-! Helper lemmas about the watcher's event handler. -/

theorem on_created_dispatch (job : Job) (st : MonState)
    (h1 : job.is_directory = false)
    (h2 : strLower (pySuffix (pathName job.src_path)) = ".m4a")
    (h3 : job.src_path ∉ st.processing)
    (h4 : wait_for_file_ready job.samples = true) :
    on_created job st
      = process_audio_file job
          { st with trace := st.trace ++ [Act.sleepInitial, Act.readinessWait] } := by
  unfold on_created
  simp [h1, h2, h3, h4]

theorem on_created_not_ready (job : Job) (st : MonState)
    (h1 : job.is_directory = false)
    (h2 : strLower (pySuffix (pathName job.src_path)) = ".m4a")
    (h3 : job.src_path ∉ st.processing)
    (h4 : wait_for_file_ready job.samples = false) :
    on_created job st
      = { st with trace := st.trace ++ [Act.sleepInitial, Act.readinessWait] } := by
  unfold on_created
  simp [h1, h2, h3, h4]

theorem process_audio_file_loads (job : Job) (st : MonState) :
    (process_audio_file job st).loads = st.loads + 1 := by
  unfold process_audio_file
  cases h : (transcribe_audio job.decoded CHUNK_LENGTH_MS job.recog).result <;>
    simp [h, transcribe_audio_loads]

theorem process_audio_file_processing (job : Job) (st : MonState) :
    (process_audio_file job st).processing
      = (job.src_path :: st.processing).erase job.src_path := by
  unfold process_audio_file
  cases h : (transcribe_audio job.decoded CHUNK_LENGTH_MS job.recog).result <;>
    simp [h]

theorem process_audio_file_trace (job : Job) (st : MonState) :
    (process_audio_file job st).trace
      = st.trace ++ [Act.addToSet] ++ midActs job ++ [Act.removeFromSet] := by
  unfold process_audio_file midActs
  cases h : (transcribe_audio job.decoded CHUNK_LENGTH_MS job.recog).result <;>
    simp [h]

theorem process_audio_file_outputs_error (job : Job) (st : MonState) (e : String)
    (h : (transcribe_audio job.decoded CHUNK_LENGTH_MS job.recog).result
      = Except.error e) :
    (process_audio_file job st).outputs = st.outputs := by
  unfold process_audio_file
  simp [h]

theorem act_add_not_mem_midActs (job : Job) : Act.addToSet ∉ midActs job := by
  unfold midActs
  cases h : (transcribe_audio job.decoded CHUNK_LENGTH_MS job.recog).result <;>
    simp [h]

theorem act_remove_not_mem_midActs (job : Job) :
    Act.removeFromSet ∉ midActs job := by
  unfold midActs
  cases h : (transcribe_audio job.decoded CHUNK_LENGTH_MS job.recog).result <;>
    simp [h]

theorem act_ready_not_mem_midActs (job : Job) :
    Act.readinessWait ∉ midActs job := by
  unfold midActs
  cases h : (transcribe_audio job.decoded CHUNK_LENGTH_MS job.recog).result <;>
    simp [h]

/-- C2 counterexample: one watcher-process invocation that handles two files
performs two `whisper.load_model` calls — the model is loaded inside
`transcribe_audio` (transcribe.py:159, transcribe_auto.py:165), which
`_process_audio_file` calls once per file (monitor.py:195), so loading is
not done exactly once per process invocation. -/
theorem c2_model_load_counterexample :
    (on_created jobB (on_created jobA mon0)).loads = 2
    ∧ (on_created jobB (on_created jobA mon0)).loads ≠ 1 := by
  refine ⟨?_, ?_⟩ <;> decide

/-- C2 (amended): the recognition model is loaded exactly once per
`transcribe_audio` invocation — i.e. once per processed file, before the
segment loop — and that one ModelHandle is reused across all segments of
that file (the loop never loads); but each dispatched file repeats the
loading, so a process handling several files loads once per file rather
than once per process. -/
theorem c2_model_load_amended (job : Job) (st : MonState)
    (h1 : job.is_directory = false)
    (h2 : strLower (pySuffix (pathName job.src_path)) = ".m4a")
    (h3 : job.src_path ∉ st.processing)
    (h4 : wait_for_file_ready job.samples = true) :
    (transcribe_audio job.decoded CHUNK_LENGTH_MS job.recog).loads = 1
    ∧ (on_created job st).loads = st.loads + 1 := by
  refine ⟨transcribe_audio_loads _ _ _, ?_⟩
  rw [on_created_dispatch job st h1 h2 h3 h4, process_audio_file_loads]

/-- C2 witness: the amended load count on a concrete successful job. -/
theorem c2_model_load_amended_witness :
    (transcribe_audio jobA.decoded CHUNK_LENGTH_MS jobA.recog).loads = 1
    ∧ (on_created jobA mon0).loads = mon0.loads + 1 :=
  c2_model_load_amended jobA mon0 rfl (by decide) (by decide) (by decide)

/-- C3 counterexample: a concrete dispatch of a fresh `.m4a` file.  The
trace shows the readiness wait (at position 1) happens strictly before the
`processing_files` insertion (at position 2): `on_created` runs
`time.sleep(2)` and `_wait_for_file_ready` first (monitor.py:116-121) and
only `_process_audio_file` inserts into the set (monitor.py:186), so the
identity is NOT in ProcessingSet before or during the readiness wait. -/
theorem c3_processing_set_counterexample :
    (on_created jobA mon0).trace
      = [Act.sleepInitial, Act.readinessWait, Act.addToSet, Act.loadModel,
         Act.decodeAudio, Act.recognize 0, Act.persistOutput, Act.removeFromSet]
    ∧ List.take 2 ((on_created jobA mon0).trace)
        = [Act.sleepInitial, Act.readinessWait]
    ∧ Act.addToSet ∉ List.take 2 ((on_created jobA mon0).trace) := by
  refine ⟨?_, ?_, ?_⟩ <;> decide

/-- C3 (amended): for every dispatch of a fresh matching file, the identity
is inserted into ProcessingSet only after the initial sleep and the
readiness wait have completed, but before any transcription work; it stays
in the set throughout model loading, decoding, recognition and persistence
(no insertion or removal occurs in between), and it is removed in a
guaranteed-cleanup step as the very last action regardless of outcome, so
the set is restored to its previous value. -/
theorem c3_processing_set_amended (job : Job) (st : MonState)
    (h1 : job.is_directory = false)
    (h2 : strLower (pySuffix (pathName job.src_path)) = ".m4a")
    (h3 : job.src_path ∉ st.processing)
    (h4 : wait_for_file_ready job.samples = true) :
    (on_created job st).trace
      = st.trace ++ [Act.sleepInitial, Act.readinessWait, Act.addToSet]
          ++ midActs job ++ [Act.removeFromSet]
    ∧ Act.addToSet ∉ midActs job
    ∧ Act.removeFromSet ∉ midActs job
    ∧ Act.readinessWait ∉ midActs job
    ∧ (on_created job st).processing = st.processing := by
  rw [on_created_dispatch job st h1 h2 h3 h4]
  refine ⟨?_, act_add_not_mem_midActs job, act_remove_not_mem_midActs job,
          act_ready_not_mem_midActs job, ?_⟩
  · rw [process_audio_file_trace]
    simp
  · rw [process_audio_file_processing]
    simp

/-- C3 witness: the amended ProcessingSet discipline on a concrete
successful dispatch. -/
theorem c3_processing_set_amended_witness :
    (on_created jobB mon0).trace
      = mon0.trace ++ [Act.sleepInitial, Act.readinessWait, Act.addToSet]
          ++ midActs jobB ++ [Act.removeFromSet]
    ∧ Act.addToSet ∉ midActs jobB
    ∧ Act.removeFromSet ∉ midActs jobB
    ∧ Act.readinessWait ∉ midActs jobB
    ∧ (on_created jobB mon0).processing = mon0.processing :=
  c3_processing_set_amended jobB mon0 rfl (by decide) (by decide) (by decide)

/-- C6: a file that fails at any stage persists no output.  (1) A readiness
timeout skips the file before the pipeline runs.  (2) A decode error aborts
the file inside the `try`, so `save_transcription` is never reached.
(3) A recognition error on segment k propagates out of the segment loop:
exactly segments 0..k are sent to the recognizer — later segments are never
attempted — and no output file is written for the file. -/
theorem c6_no_partial_output (job : Job) (st : MonState)
    (h1 : job.is_directory = false)
    (h2 : strLower (pySuffix (pathName job.src_path)) = ".m4a")
    (h3 : job.src_path ∉ st.processing) :
    (wait_for_file_ready job.samples = false →
        (on_created job st).outputs = st.outputs)
    ∧ (∀ e, job.decoded = Except.error e →
        (on_created job st).outputs = st.outputs)
    ∧ (∀ (audio : List Nat) (k : Nat) (e : String),
        job.decoded = Except.ok audio →
        k < (convert_audio_to_chunks audio CHUNK_LENGTH_MS).length →
        (∀ j, j < k → job.recog j = Except.ok (okText job.recog j)) →
        job.recog k = Except.error e →
        (on_created job st).outputs = st.outputs
        ∧ (transcribe_audio job.decoded CHUNK_LENGTH_MS job.recog).calls
            = List.range (k + 1)) := by
  refine ⟨?_, ?_, ?_⟩
  · intro h4
    rw [on_created_not_ready job st h1 h2 h3 h4]
  · intro e hdec
    cases h4 : wait_for_file_ready job.samples with
    | false => rw [on_created_not_ready job st h1 h2 h3 h4]
    | true =>
        rw [on_created_dispatch job st h1 h2 h3 h4]
        exact process_audio_file_outputs_error job _ e (by rw [hdec]; rfl)
  · intro audio k e hdec hk hok hfail
    have hres := transcribe_audio_fail audio CHUNK_LENGTH_MS job.recog k e hk hok hfail
    constructor
    · cases h4 : wait_for_file_ready job.samples with
      | false => rw [on_created_not_ready job st h1 h2 h3 h4]
      | true =>
          rw [on_created_dispatch job st h1 h2 h3 h4]
          exact process_audio_file_outputs_error job _ e (by rw [hdec, hres])
    · rw [hdec, hres]

/-- C6 witness: a concrete job whose recognition fails on segment 0 of 1;
no output is persisted and only segment 0 was ever sent to the
recognizer. -/
theorem c6_no_partial_output_witness :
    (on_created jobFail mon0).outputs = mon0.outputs
    ∧ (transcribe_audio jobFail.decoded CHUNK_LENGTH_MS jobFail.recog).calls
        = List.range 1 :=
  (c6_no_partial_output jobFail mon0 rfl (by decide) (by decide)).2.2
    [1, 2] 0 "boom" rfl (by decide)
    (fun j hj => absurd hj (Nat.not_lt_zero j)) rfl

/-- C10: in the batch variant, each file's transcription and persistence run
inside `try/except ... continue` (transcribe.py:357-373), so the loop visits
every file of the (sorted, `.m4a`-filtered) input list in order regardless
of per-file outcomes — a failing file never terminates the batch run. -/
theorem c10_batch_failure_isolation :
    (∀ (tr : String → Except String String)
       (sv : String → String → Except String (String × String))
       (files : List String),
        (main_batch_loop tr sv files).map Prod.fst = files)
    ∧ (∀ (tr : String → Except String String)
       (sv : String → String → Except String (String × String))
       (f : String) (rest : List String),
        main_batch_loop tr sv (f :: rest)
          = (f, processOneFile tr sv f) :: main_batch_loop tr sv rest)
    ∧ (∀ (tr : String → Except String String)
       (sv : String → String → Except String (String × String))
       (listing : List String),
        (main_batch_loop tr sv (get_m4a_files listing)).map Prod.fst
          = get_m4a_files listing) := by
  have h : ∀ (tr : String → Except String String)
      (sv : String → String → Except String (String × String))
      (files : List String),
      (main_batch_loop tr sv files).map Prod.fst = files := by
    intro tr sv files
    induction files with
    | nil => rfl
    | cons f rest ih => simp [main_batch_loop, ih]
  exact ⟨h, fun tr sv f rest => rfl, fun tr sv listing => h tr sv _⟩

end TranscriptionSummarizer
